import Mathlib

/-!
# Verification of the pocket-id webhook service

A shallow embedding of `src/backend/internal/service/webhook_service.go`.
Go strings are modelled as Lean `String`s (sequences of characters); Go
slices as Lean lists, with the `nil` slice identified with the empty list
(JSON `omitempty` treats them identically).  The HTTP client is modelled
as an explicit oracle `HttpRequest → HttpResult`, and every function that
performs I/O also returns the list of HTTP requests it issued, so that
"performs zero HTTP calls" is expressible.
-/

namespace Webhook

/-- Go's `unicode.IsSpace` on the characters it reports as white space:
the Latin-1 cases '\t', '\n', '\v', '\f', '\r', ' ', U+0085, U+00A0,
plus the Unicode `White_Space` code points. -/
def goIsSpace (c : Char) : Bool :=
  [' ', '\t', '\n', '\x0B', '\x0C', '\r', '\u0085', '\u00A0',
   '\u1680', '\u2000', '\u2001', '\u2002', '\u2003', '\u2004', '\u2005',
   '\u2006', '\u2007', '\u2008', '\u2009', '\u200A', '\u2028', '\u2029',
   '\u202F', '\u205F', '\u3000'].contains c

/-- Go's `strings.TrimSpace`: drop leading and trailing white space. -/
def goTrimSpace (s : String) : String :=
  String.mk (((s.toList.dropWhile goIsSpace).reverse.dropWhile goIsSpace).reverse)

/-- Auxiliary for `goContains`: does `sub` occur as a contiguous run in `s`? -/
def containsAux (sub : List Char) : List Char → Bool
  | [] => sub.isEmpty
  | c :: rest => sub.isPrefixOf (c :: rest) || containsAux sub rest

/-- Go's `strings.Contains s sub`. -/
def goContains (s sub : String) : Bool :=
  containsAux sub.toList s.toList

/-- Auxiliary for `goSplit`: split a character list at every occurrence
of the separator character. -/
def splitOnChar (sep : Char) : List Char → List (List Char)
  | [] => [[]]
  | c :: rest =>
    if c = sep then [] :: splitOnChar sep rest
    else
      match splitOnChar sep rest with
      | [] => [[c]]
      | w :: ws => (c :: w) :: ws

/-- Go's `strings.Split s sep` for a one-character separator (the only
form the service uses: `","` and `"_"`). -/
def goSplit (s : String) (sep : Char) : List String :=
  (splitOnChar sep s.toList).map String.mk

/-- Go's `strings.Join`. -/
def goJoin (sep : String) : List String → String
  | [] => ""
  | [w] => w
  | w :: ws => w ++ sep ++ goJoin sep ws

/-- Go's `strings.ToUpper`, restricted to the ASCII mapping (event kinds
and all strings the service manipulates are ASCII). -/
def goToUpper (s : String) : String :=
  String.mk (s.toList.map Char.toUpper)

/-- Go's `strings.ToLower`, restricted to the ASCII mapping. -/
def goToLower (s : String) : String :=
  String.mk (s.toList.map Char.toLower)

/-- `webhookEmbedField` from webhook_service.go: one name/value display
field with an inline hint. -/
structure WebhookEmbedField where
  name : String
  value : String
  inline : Bool
  deriving Repr, DecidableEq

/-- `webhookEmbed` from webhook_service.go. -/
structure WebhookEmbed where
  title : String
  color : Nat
  fields : List WebhookEmbedField
  timestamp : String
  deriving Repr, DecidableEq

/-- `webhookPayload` from webhook_service.go: `content`, `embeds` and
`attachments` are all tagged `omitempty`. -/
structure WebhookPayload where
  content : String
  embeds : List WebhookEmbed
  attachments : List WebhookEmbed
  deriving Repr, DecidableEq

/-- A JSON value, sufficient for serializing `webhookPayload`. -/
inductive Json where
  | str : String → Json
  | num : Nat → Json
  | bool : Bool → Json
  | arr : List Json → Json
  | obj : List (String × Json) → Json
  deriving Repr

/-- The top-level keys of a serialized JSON object. -/
def jsonKeys : Json → List String
  | .obj l => l.map Prod.fst
  | _ => []

/-- `json.Marshal` on a `webhookEmbedField` (no `omitempty` tags). -/
def marshalField (f : WebhookEmbedField) : Json :=
  .obj [("name", .str f.name), ("value", .str f.value), ("inline", .bool f.inline)]

/-- `json.Marshal` on a `webhookEmbed` (no `omitempty` tags). -/
def marshalEmbed (e : WebhookEmbed) : Json :=
  .obj [("title", .str e.title), ("color", .num e.color),
        ("fields", .arr (e.fields.map marshalField)),
        ("timestamp", .str e.timestamp)]

/-- `json.Marshal` on a `webhookPayload`: each of the three keys carries
`omitempty`, so an empty string or a nil/empty slice omits the key. -/
def marshalPayload (p : WebhookPayload) : Json :=
  .obj ((if p.content = "" then [] else [("content", Json.str p.content)]) ++
        (if p.embeds = [] then [] else [("embeds", Json.arr (p.embeds.map marshalEmbed))]) ++
        (if p.attachments = [] then [] else
          [("attachments", Json.arr (p.attachments.map marshalEmbed))]))

/-- An outbound HTTP request as built by `sendPayload`. -/
structure HttpRequest where
  method : String
  url : String
  contentType : String
  body : Json
  deriving Repr

/-- The outcome the HTTP client oracle reports for a request: either a
response with a status code, or a transport error. -/
inductive HttpResult where
  | response : Nat → HttpResult
  | transportError : String → HttpResult
  deriving Repr

/-- An HTTP client: a deterministic oracle from requests to outcomes,
standing in for `http.Client.Do`. -/
def HttpClient := HttpRequest → HttpResult

/-- The configuration read from `appConfigService.GetDbConfig()`:
`WebhookUrl.Value` and `WebhookEvents.Value`. -/
structure AppConfig where
  webhookUrl : String
  webhookEvents : String
  deriving Repr, DecidableEq

/-- `model.AuditLog`, restricted to the fields the webhook service reads.
`createdAt` holds the RFC 3339 UTC rendering of the creation time (the
service only ever formats the time, never inspects it); `data` is the
extra-attributes map, modelled as an association list in some iteration
order. -/
structure AuditLog where
  event : String
  username : String
  ipAddress : Option String
  country : String
  city : String
  userAgent : String
  createdAt : String
  data : List (String × String)
  deriving Repr, DecidableEq

/-- `valueOrDash` from webhook_service.go. -/
def valueOrDash (v : String) : String :=
  if v = "" then "-" else v

/-- `formatLocation` from webhook_service.go. -/
def formatLocation (country city : String) : String :=
  if country = "" ∧ city = "" then ""
  else if city = "" then country
  else if country = "" then city
  else city ++ ", " ++ country

/-- `formatEventTitle` from webhook_service.go: split on "_", capitalize
the first character and lowercase the rest of each non-empty word, join
with " ". -/
def formatEventTitle (event : String) : String :=
  let words := goSplit event '_'
  let words := words.map fun w =>
    if w.length > 0 then
      goToUpper (String.mk (w.toList.take 1)) ++ goToLower (String.mk (w.toList.drop 1))
    else w
  goJoin " " words

/-- `isEventAllowed` from webhook_service.go, with the configuration it
reads passed explicitly. -/
def isEventAllowed (cfg : AppConfig) (event : String) : Bool :=
  let eventsFilter := cfg.webhookEvents
  if eventsFilter = "" then true
  else (goSplit eventsFilter ',').any fun allowed => goTrimSpace allowed = event

/-- The payload re-shaping at the top of `sendPayload`: a URL containing
"hooks.slack.com" moves the embeds under `Attachments` and clears
`Embeds`; any other URL leaves the payload unchanged. -/
def shapePayload (webhookURL : String) (payload : WebhookPayload) : WebhookPayload :=
  if goContains webhookURL "hooks.slack.com" then
    { payload with attachments := payload.embeds, embeds := [] }
  else payload

/-- `sendPayload` from webhook_service.go, with the HTTP client explicit.
Marshalling the payload and building the request cannot fail for these
types, so only the transport and the status check can produce errors.
Returns the result together with the list of HTTP requests issued. -/
def sendPayload (client : HttpClient) (webhookURL : String) (payload : WebhookPayload) :
    Except String Unit × List HttpRequest :=
  let finalPayload := shapePayload webhookURL payload
  let body := marshalPayload finalPayload
  let req : HttpRequest := ⟨"POST", webhookURL, "application/json", body⟩
  match client req with
  | .transportError e => (.error ("failed to send webhook request: " ++ e), [req])
  | .response status =>
    if status < 200 ∨ 300 ≤ status then
      (.error ("webhook returned non-success status: " ++ toString status), [req])
    else (.ok (), [req])

/-- The four fixed fields `SendEvent` places first. -/
def fixedEventFields (auditLog : AuditLog) : List WebhookEmbedField :=
  let ipAddress := match auditLog.ipAddress with
    | none => ""
    | some ip => ip
  let location := formatLocation auditLog.country auditLog.city
  [⟨"User", valueOrDash auditLog.username, true⟩,
   ⟨"IP Address", valueOrDash ipAddress, true⟩,
   ⟨"Location", valueOrDash location, true⟩,
   ⟨"Device", valueOrDash auditLog.userAgent, true⟩]

/-- The full field list of the payload `SendEvent` builds: the four fixed
fields followed by one field per extra-attribute entry. -/
def buildEventFields (auditLog : AuditLog) : List WebhookEmbedField :=
  fixedEventFields auditLog ++
    auditLog.data.map fun kv => ⟨kv.1, valueOrDash kv.2, true⟩

/-- The payload `SendEvent` builds for an audit log event. -/
def buildEventPayload (auditLog : AuditLog) : WebhookPayload :=
  { content := ""
    embeds := [{ title := formatEventTitle auditLog.event
                 color := 5814783
                 fields := buildEventFields auditLog
                 timestamp := auditLog.createdAt }]
    attachments := [] }

/-- `SendEvent` from webhook_service.go.  The Go method returns nothing
and swallows every send error after logging it; the model returns the
list of HTTP requests issued. -/
def SendEvent (client : HttpClient) (cfg : AppConfig) (auditLog : AuditLog) :
    List HttpRequest :=
  let webhookURL := cfg.webhookUrl
  if webhookURL = "" then []
  else if ¬ isEventAllowed cfg auditLog.event then []
  else (sendPayload client webhookURL (buildEventPayload auditLog)).2

/-- The payload `SendTestWebhook` builds; `now` is the RFC 3339 UTC
rendering of the current time. -/
def buildTestPayload (now : String) : WebhookPayload :=
  { content := ""
    embeds := [{ title := "Test Webhook"
                 color := 5814783
                 fields := [⟨"Status", "Connection successful", false⟩,
                            ⟨"Source", "Pocket ID", true⟩]
                 timestamp := now }]
    attachments := [] }

/-- `SendTestWebhook` from webhook_service.go: errors propagate to the
caller.  Returns the result together with the list of HTTP requests
issued. -/
def SendTestWebhook (client : HttpClient) (cfg : AppConfig) (now : String) :
    Except String Unit × List HttpRequest :=
  if cfg.webhookUrl = "" then (.error "webhook URL is not configured", [])
  else sendPayload client cfg.webhookUrl (buildTestPayload now)

/-- The transformation described by the spec for `titleFromEventKind`:
split on the word separator, capitalize each word's first letter,
lowercase the remainder, join with spaces, empty segments unchanged.
Stated independently of `formatEventTitle` to compare the two. -/
def titleFromEventKindSpec (kind : String) : String :=
  goJoin " " ((goSplit kind '_').map fun w =>
    match w.toList with
    | [] => w
    | c :: rest => String.mk (c.toUpper :: rest.map Char.toLower))

/-- Auxiliary for `hostOf`: the part of a URL after the "://" scheme
separator. -/
def afterScheme : List Char → List Char
  | [] => []
  | ':' :: '/' :: '/' :: rest => rest
  | _ :: rest => afterScheme rest

/-- The host component of a URL: what stands between the "://" scheme
separator and the first '/' or '?' after it (the RFC 3986 authority).
Used only to state that Slack-style detection looks at the whole URL
rather than at this component. -/
def hostOf (url : String) : String :=
  String.mk ((afterScheme url.toList).takeWhile fun c => c != '/' && c != '?')

/-! ## Helper lemmas -/

/-- `valueOrDash` never returns the empty string. -/
theorem valueOrDash_ne_empty (v : String) : valueOrDash v ≠ "" := by
  unfold valueOrDash
  split
  · decide
  · assumption

/-- `sendPayload` issues exactly one POST request, to the configured URL,
with content type "application/json" and the serialized re-shaped payload
as body, whatever the client answers. -/
theorem sendPayload_requests (client : HttpClient) (url : String) (p : WebhookPayload) :
    (sendPayload client url p).2 =
      [⟨"POST", url, "application/json", marshalPayload (shapePayload url p)⟩] := by
  unfold sendPayload
  dsimp only
  split
  · rfl
  · split <;> rfl

/-! ## Claims -/

/-- C2: `isEventAllowed` returns true unconditionally when the filter
string is empty; otherwise it returns true if and only if the event kind
exactly (case-sensitively) equals one of the filter's comma-separated
entries after trimming surrounding whitespace from each entry. -/
theorem C2_isEventAllowed_characterization (cfg : AppConfig) (event : String) :
    isEventAllowed cfg event = true ↔
      (cfg.webhookEvents = "" ∨
        event ∈ (goSplit cfg.webhookEvents ',').map goTrimSpace) := by
  unfold isEventAllowed
  by_cases h : cfg.webhookEvents = ""
  · simp [h]
  · simp only [h, if_false, List.any_eq_true, decide_eq_true_eq, List.mem_map,
      false_or]

/-- C5: with an empty configured URL, `SendTestWebhook` returns the
"not configured" error and issues zero HTTP requests. -/
theorem C5_SendTestWebhook_not_configured (client : HttpClient) (cfg : AppConfig)
    (now : String) (h : cfg.webhookUrl = "") :
    SendTestWebhook client cfg now = (.error "webhook URL is not configured", []) := by
  unfold SendTestWebhook
  rw [if_pos h]

theorem C5_SendTestWebhook_not_configured_witness :
    SendTestWebhook (fun _ => .response 200) ⟨"", "SIGN_IN"⟩ "ts" =
      (.error "webhook URL is not configured", []) :=
  C5_SendTestWebhook_not_configured (fun _ => .response 200) ⟨"", "SIGN_IN"⟩ "ts" rfl

/-- C6: `SendEvent` issues zero HTTP requests (and, returning nothing,
reports no error) when the configured URL is empty, and likewise when
`isEventAllowed` rejects the event kind. -/
theorem C6_SendEvent_no_calls (client : HttpClient) (cfg : AppConfig) (a : AuditLog)
    (h : cfg.webhookUrl = "" ∨ isEventAllowed cfg a.event = false) :
    SendEvent client cfg a = [] := by
  unfold SendEvent
  rcases h with h | h
  · rw [if_pos h]
  · by_cases hu : cfg.webhookUrl = ""
    · rw [if_pos hu]
    · rw [if_neg hu, if_pos (by simp [h])]

theorem C6_SendEvent_no_calls_witness :
    SendEvent (fun _ => .response 200) ⟨"https://example.com/hook", "TOKEN_SIGN_IN"⟩
      ⟨"SIGN_IN", "alice", none, "", "", "UA", "ts", []⟩ = [] :=
  C6_SendEvent_no_calls (fun _ => .response 200) ⟨"https://example.com/hook", "TOKEN_SIGN_IN"⟩
    ⟨"SIGN_IN", "alice", none, "", "", "UA", "ts", []⟩ (Or.inr (by decide))

/-- C7: `formatEventTitle` splits on the underscore separator,
capitalizes each word's first letter and lowercases the remainder, joins
the words with single spaces, and lets empty segments pass through
unchanged; in particular "SIGN_IN" becomes "Sign In" and
"NEW_CLIENT_AUTHORIZATION" becomes "New Client Authorization". -/
theorem C7_formatEventTitle_spec :
    (∀ s, formatEventTitle s = titleFromEventKindSpec s) ∧
    formatEventTitle "SIGN_IN" = "Sign In" ∧
    formatEventTitle "NEW_CLIENT_AUTHORIZATION" = "New Client Authorization" ∧
    formatEventTitle "A__B" = "A  B" := by
  refine ⟨fun s => ?_, by decide, by decide, by decide⟩
  unfold formatEventTitle titleFromEventKindSpec
  dsimp only
  congr 1
  apply List.map_congr_left
  intro w _
  obtain ⟨l⟩ := w
  cases l with
  | nil => rfl
  | cons c rest =>
    have hpos : (String.mk (c :: rest)).length > 0 := Nat.succ_pos rest.length
    rw [if_pos hpos]
    rfl

/-- C1, counterexample: the claim quantifies over every payload, but for
a payload with non-empty `content`, empty `embeds` and non-empty
`attachments` sent to a non-Slack URL, the serialized body has a
"content" key and an "attachments" key and no "embeds" key — the claim
demands the opposite on all three counts. -/
theorem C1_counterexample :
    goContains "https://example.com/hook" "hooks.slack.com" = false ∧
    ((sendPayload (fun _ => .response 200) "https://example.com/hook"
        ⟨"hello", [], [⟨"t", 0, [], "ts"⟩]⟩).2.map fun r => jsonKeys r.body) =
      [["content", "attachments"]] :=
  ⟨rfl, rfl⟩

/-- C1, amended: for every payload whose `content` is empty, whose
`attachments` list is empty and whose `embeds` list is non-empty (the
shape of every payload this service builds), the body serialized by
`sendPayload` has an "attachments" key and no "embeds" key when the URL
contains "hooks.slack.com", an "embeds" key and no "attachments" key for
any other URL, and never a "content" key. -/
theorem C1_sendPayload_destination_shape (client : HttpClient) (url : String)
    (p : WebhookPayload) (hc : p.content = "") (ha : p.attachments = [])
    (he : p.embeds ≠ []) :
    ∀ req ∈ (sendPayload client url p).2,
      "content" ∉ jsonKeys req.body ∧
      (goContains url "hooks.slack.com" = true →
        "attachments" ∈ jsonKeys req.body ∧ "embeds" ∉ jsonKeys req.body) ∧
      (goContains url "hooks.slack.com" = false →
        "embeds" ∈ jsonKeys req.body ∧ "attachments" ∉ jsonKeys req.body) := by
  rw [sendPayload_requests]
  intro req hreq
  rw [List.mem_singleton] at hreq
  subst hreq
  unfold shapePayload
  by_cases hs : goContains url "hooks.slack.com" = true
  · rw [if_pos hs]
    refine ⟨?_, fun _ => ?_, fun hfalse => absurd hs (by simp [hfalse])⟩ <;>
      simp [marshalPayload, jsonKeys, hc, he]
  · rw [if_neg hs]
    refine ⟨?_, fun htrue => absurd htrue hs, fun _ => ?_⟩ <;>
      simp [marshalPayload, jsonKeys, hc, ha, he]

theorem C1_sendPayload_destination_shape_witness :
    "attachments" ∈ jsonKeys (HttpRequest.mk "POST" "https://hooks.slack.com/services/T0"
      "application/json"
      (marshalPayload (shapePayload "https://hooks.slack.com/services/T0"
        (buildTestPayload "ts")))).body := by
  have h := C1_sendPayload_destination_shape (fun _ => HttpResult.response 200)
    "https://hooks.slack.com/services/T0" (buildTestPayload "ts") rfl rfl (by decide)
  have hm : (⟨"POST", "https://hooks.slack.com/services/T0", "application/json",
      marshalPayload (shapePayload "https://hooks.slack.com/services/T0"
        (buildTestPayload "ts"))⟩ : HttpRequest) ∈
      (sendPayload (fun _ => HttpResult.response 200) "https://hooks.slack.com/services/T0"
        (buildTestPayload "ts")).2 := by
    rw [sendPayload_requests]
    exact List.mem_singleton_self _
  exact ((h _ hm).2.1 (by decide)).1

/-- C3, counterexample: for an event with empty country and empty city,
the (unique) "Location" field of the payload built by `SendEvent` has
value "-", not `formatLocation "" "" = ""` as the claim states. -/
theorem C3_counterexample :
    ((buildEventFields ⟨"SIGN_IN", "alice", none, "", "", "UA", "ts", []⟩).filter
        fun f => f.name == "Location") = [⟨"Location", "-", true⟩] ∧
    formatLocation "" "" = "" :=
  ⟨rfl, rfl⟩

/-- C3, amended: the value of the "Location" field (the third field) of
the payload built by `SendEvent` equals
`valueOrDash (formatLocation event.country event.city)`; in particular
it is the placeholder dash "-" when both country and city are empty. -/
theorem C3_location_field (a : AuditLog) :
    (buildEventFields a)[2]? =
      some ⟨"Location", valueOrDash (formatLocation a.country a.city), true⟩ ∧
    valueOrDash (formatLocation "" "") = "-" :=
  ⟨rfl, rfl⟩

/-- C4: whenever the destination responds, `SendTestWebhook` succeeds if
and only if the response status is in 200–299, and any status outside
that range yields an error naming the numeric status code. -/
theorem C4_SendTestWebhook_status (client : HttpClient) (cfg : AppConfig) (now : String)
    (status : Nat) (hurl : cfg.webhookUrl ≠ "")
    (hresp : ∀ req, client req = .response status) :
    ((SendTestWebhook client cfg now).1 = .ok () ↔ 200 ≤ status ∧ status < 300) ∧
    (status < 200 ∨ 300 ≤ status →
      (SendTestWebhook client cfg now).1 =
        .error ("webhook returned non-success status: " ++ toString status)) := by
  unfold SendTestWebhook
  rw [if_neg hurl]
  unfold sendPayload
  dsimp only
  rw [hresp]
  dsimp only
  by_cases h : status < 200 ∨ 300 ≤ status
  · rw [if_pos h]
    exact ⟨iff_of_false (by simp) (by omega), fun _ => rfl⟩
  · rw [if_neg h]
    exact ⟨iff_of_true rfl (by omega), fun hc => absurd hc h⟩

theorem C4_SendTestWebhook_status_witness :
    ((SendTestWebhook (fun _ => HttpResult.response 204)
        ⟨"https://example.com/hook", ""⟩ "ts").1 = .ok () ↔ 200 ≤ 204 ∧ 204 < 300) ∧
    (SendTestWebhook (fun _ => HttpResult.response 500)
        ⟨"https://example.com/hook", ""⟩ "ts").1 =
      .error ("webhook returned non-success status: " ++ toString 500) :=
  ⟨(C4_SendTestWebhook_status (fun _ => .response 204) ⟨"https://example.com/hook", ""⟩
      "ts" 204 (by decide) fun _ => rfl).1,
   (C4_SendTestWebhook_status (fun _ => .response 500) ⟨"https://example.com/hook", ""⟩
      "ts" 500 (by decide) fun _ => rfl).2 (by omega)⟩

/-- C8: each extra-attribute entry (k, v) of an audit event appears in
the payload built by `SendEvent` as a field with name k, value
`valueOrDash v` and inline hint true; these fields follow the four fixed
fields, and when the mapping's keys are distinct (as in a Go map) the
entry contributes exactly one such field. -/
theorem C8_extra_attribute_fields (a : AuditLog) (k v : String)
    (hnd : (a.data.map Prod.fst).Nodup) (hkv : (k, v) ∈ a.data) :
    buildEventFields a =
      fixedEventFields a ++ a.data.map (fun kv => ⟨kv.1, valueOrDash kv.2, true⟩) ∧
    (fixedEventFields a).length = 4 ∧
    (⟨k, valueOrDash v, true⟩ : WebhookEmbedField) ∈
      a.data.map (fun kv => ⟨kv.1, valueOrDash kv.2, true⟩) ∧
    (a.data.map fun kv => (⟨kv.1, valueOrDash kv.2, true⟩ : WebhookEmbedField)).countP
      (fun f => f.name == k) = 1 := by
  refine ⟨rfl, rfl, List.mem_map.mpr ⟨(k, v), hkv, rfl⟩, ?_⟩
  have hk : k ∈ a.data.map Prod.fst := List.mem_map.mpr ⟨(k, v), hkv, rfl⟩
  have h1 : (a.data.map fun kv => (⟨kv.1, valueOrDash kv.2, true⟩ : WebhookEmbedField)).countP
      (fun f => f.name == k) = a.data.countP fun kv => kv.1 == k := by
    rw [List.countP_map]
    rfl
  have h2 : (a.data.map Prod.fst).count k = a.data.countP fun kv => kv.1 == k := by
    show (a.data.map Prod.fst).countP (· == k) = _
    rw [List.countP_map]
    rfl
  rw [h1, ← h2]
  exact List.count_eq_one_of_mem hnd hk

theorem C8_extra_attribute_fields_witness :
    ((([("Key1", "v1"), ("Key2", "")] : List (String × String)).map
        fun kv => (⟨kv.1, valueOrDash kv.2, true⟩ : WebhookEmbedField)).countP
      fun f => f.name == "Key2") = 1 :=
  (C8_extra_attribute_fields ⟨"SIGN_IN", "alice", none, "", "", "UA", "ts",
      [("Key1", "v1"), ("Key2", "")]⟩ "Key2" "" (by decide) (by decide)).2.2.2

/-- C9: destination-style detection depends only on the whole URL string
containing "hooks.slack.com", not on the host component: for a URL with
host "example.com" and the substring only in its query, `sendPayload`
serializes in the Slack "attachments" shape. -/
theorem C9_substring_detection_ignores_host :
    hostOf "https://example.com/webhook?u=hooks.slack.com" = "example.com" ∧
    goContains (hostOf "https://example.com/webhook?u=hooks.slack.com")
      "hooks.slack.com" = false ∧
    goContains "https://example.com/webhook?u=hooks.slack.com" "hooks.slack.com" = true ∧
    ((sendPayload (fun _ => .response 200) "https://example.com/webhook?u=hooks.slack.com"
        (buildTestPayload "ts")).2.map fun r => jsonKeys r.body) = [["attachments"]] :=
  ⟨rfl, rfl, rfl, rfl⟩

/-- C10: every field of the payload built by `SendEvent` — fixed and
extra alike — goes through `valueOrDash`, so no field ever carries an
empty value. -/
theorem C10_no_empty_field_values (a : AuditLog) :
    ∀ f ∈ buildEventFields a, f.value ≠ "" := by
  intro f hf
  unfold buildEventFields fixedEventFields at hf
  rcases List.mem_append.mp hf with hfix | hext
  · simp only [List.mem_cons, List.not_mem_nil, or_false] at hfix
    rcases hfix with rfl | rfl | rfl | rfl
    all_goals exact valueOrDash_ne_empty _
  · rcases List.mem_map.mp hext with ⟨kv, _, rfl⟩
    exact valueOrDash_ne_empty _

theorem C10_no_empty_field_values_witness :
    (⟨"User", "-", true⟩ : WebhookEmbedField).value ≠ "" :=
  C10_no_empty_field_values ⟨"SIGN_IN", "", none, "", "", "", "ts", []⟩
    ⟨"User", "-", true⟩ (by decide)

end Webhook
